import Mathlib

/-!
Shallow embedding of `src/_worker.js` (Koyeb keep-alive worker).

The worker consists of:
  * `keepAlive`  – the Runner: checks the KOYEB_TOKEN credential, issues an
    authenticated fetch to the Koyeb profile endpoint, optionally pings
    KOYEB_APP_URL, accumulates log messages and a success flag, and persists
    the outcome through `saveLogs`.
  * `saveLogs`   – History Store append: read the `history` key of the KV
    binding, JSON-parse it, unshift a new log entry, truncate to
    `CONFIG.LOG_LIMIT` (20), write back, and write a `last_run` timestamp;
    the whole body is wrapped in try/catch so failures degrade to a no-op.
  * `handleGetLogs` – History Store list: read and JSON-parse the `history`
    key, returning `[]` on absence or failure.
  * `handleTrigger` – façade for `/api/trigger`: runs `keepAlive` with
    source `"Web Dashboard"` and returns the JSON-encoded RunResult.

External effects are modelled as explicit inputs: the outcome of each fetch,
the timestamps produced by `new Date().toISOString()` / `Date.now()`, and the
key-value store state (threaded in and out).  JSON texts are modelled at the
level of a JSON value AST: a stored KV value either is the serialization of a
`Json` value or is `malformed` (a string on which `JSON.parse` throws).
-/

/-- JSON value AST (the image of `JSON.parse` on valid JSON text). -/
inductive Json where
  | null
  | bool (b : Bool)
  | num (n : Int)
  | str (s : String)
  | arr (xs : List Json)
  | obj (kvs : List (String × Json))

/-- A raw value held under a KV key: either valid JSON text (represented by
the `Json` value it parses to) or text on which `JSON.parse` throws. -/
inductive HVal where
  | json (j : Json)
  | malformed

/-- State of the backing key-value store: the two keys the worker uses,
`history` and `last_run` (`none` = key absent). `last_run` is written as a
plain ISO string and never read back by the worker, so it is kept as a raw
string. -/
structure KVStore where
  history : Option HVal
  lastRun : Option String

/-- Availability of the KV binding's operations for the duration of a call:
whether `get` throws, and — since `saveLogs` issues two independent `put`
calls — whether the `put('history')` write throws and whether the
`put('last_run')` write throws.  The source's two puts are sequential, so
the history put can land before the last-run put throws. -/
structure KVFlags where
  getFails : Bool
  putHistoryFails : Bool
  putLastRunFails : Bool

/-- Environment bindings of the worker.  `LOG_KV = none` models an absent
KV binding (`!env.LOG_KV`). -/
structure Env where
  KOYEB_TOKEN : Option String
  KOYEB_APP_URL : Option String
  LOG_KV : Option KVFlags

/-- JS truthiness of an optional environment string: `undefined` and the
empty string are falsy (`!env.KOYEB_TOKEN`). -/
def truthyStr : Option String → Bool
  | none => false
  | some s => !(s = "")

/-- `CONFIG.LOG_LIMIT` from the source. -/
def LOG_LIMIT : Nat := 20

/-- First-match lookup in a JSON object's key/value list (JS property access
on a plain parsed object). -/
def lookupPairs : List (String × Json) → String → Option Json
  | [], _ => none
  | (k', v) :: rest, k => if k' = k then some v else lookupPairs rest k

/-- JS property access `x.k` on a parsed JSON value: throws (TypeError) when
`x` is `null`, yields `undefined` (`none`) on primitives and arrays, and
looks the key up on objects. -/
def jsProp : Json → String → Except Unit (Option Json)
  | Json.null, _ => Except.error ()
  | Json.obj kvs, k => Except.ok (lookupPairs kvs k)
  | _, _ => Except.ok none

/-- JS truthiness of a parsed JSON value. -/
def jsTruthy : Json → Bool
  | Json.null => false
  | Json.bool b => b
  | Json.num n => !(n = 0)
  | Json.str s => !(s = "")
  | Json.arr _ => true
  | Json.obj _ => true

mutual
/-- JS template-literal stringification of a parsed JSON value
(arrays join their elements with `,`, `null` elements render empty). -/
def jsToString : Json → String
  | Json.null => "null"
  | Json.bool b => if b then "true" else "false"
  | Json.num n => toString n
  | Json.str s => s
  | Json.arr xs => jsJoin xs
  | Json.obj _ => "[object Object]"

/-- `Array.prototype.join(',')` over parsed JSON elements. -/
def jsJoin : List Json → String
  | [] => ""
  | [Json.null] => ""
  | [x] => jsToString x
  | Json.null :: rest => "," ++ jsJoin rest
  | x :: rest => jsToString x ++ "," ++ jsJoin rest
end

/-- V8's TypeError message for `data.user` when `data` is `null`. -/
def nullReadUserMsg : String := "Cannot read properties of null (reading 'user')"

/-- `data.user?.email` with JS semantics: throws when `data` is `null`;
otherwise optional-chains through `user`. -/
def userEmail (data : Json) : Except Unit (Option Json) :=
  match jsProp data "user" with
  | Except.error e => Except.error e
  | Except.ok none => Except.ok none
  | Except.ok (some Json.null) => Except.ok none
  | Except.ok (some u) => jsProp u "email"

/-- The log entry object built by `saveLogs`:
`{ time, status: status ? 'success' : 'error', messages: newLogs }`. -/
def logEntry (time : String) (status : Bool) (messages : List String) : Json :=
  Json.obj [("time", Json.str time),
            ("status", Json.str (if status then "success" else "error")),
            ("messages", Json.arr (messages.map Json.str))]

/-- Body of `saveLogs`'s try-block.  Yields the store state at the moment
control leaves the block together with whether a throw occurred (the catch
swallows it).  Throws happen when: `get` throws; the stored text fails
`JSON.parse` (`malformed`); the parsed value is not an array (so
`history.unshift` throws a TypeError); or one of the two sequential `put`
calls throws.  A throwing operation writes nothing, so the state reflects
exactly the puts that landed before the throw — in particular
`put('history')` can land before `put('last_run')` throws. -/
def saveLogsTry (flags : KVFlags) (st : KVStore) (newLogs : List String)
    (status : Bool) (now2 : String) : KVStore × Bool :=
  if flags.getFails then (st, true) else
  match st.history with
  | some HVal.malformed => (st, true)
  | some (HVal.json Json.null) => (st, true)
  | some (HVal.json (Json.bool _)) => (st, true)
  | some (HVal.json (Json.num _)) => (st, true)
  | some (HVal.json (Json.str _)) => (st, true)
  | some (HVal.json (Json.obj _)) => (st, true)
  | none =>
    if flags.putHistoryFails then (st, true)
    else
      let st1 : KVStore :=
        { st with history := some (HVal.json (Json.arr [logEntry now2 status newLogs])) }
      if flags.putLastRunFails then (st1, true)
      else ({ st1 with lastRun := some now2 }, false)
  | some (HVal.json (Json.arr hs)) =>
    let history1 := logEntry now2 status newLogs :: hs
    let history2 := if history1.length > LOG_LIMIT then history1.take LOG_LIMIT else history1
    if flags.putHistoryFails then (st, true)
    else
      let st1 : KVStore := { st with history := some (HVal.json (Json.arr history2)) }
      if flags.putLastRunFails then (st1, true)
      else ({ st1 with lastRun := some now2 }, false)

/-- `saveLogs(env, newLogs, status)`: returns immediately when the KV binding
is absent; otherwise runs the try-block and swallows any exception
(`catch { console.error }`), so the resulting store is whatever the try-block
had written by the time it finished or threw. -/
def saveLogs (env : Env) (st : KVStore) (newLogs : List String)
    (status : Bool) (now2 : String) : KVStore :=
  match env.LOG_KV with
  | none => st
  | some flags => (saveLogsTry flags st newLogs status now2).fst

/-- `handleGetLogs(env)`: `history = []`, then if the binding exists, read and
`JSON.parse` the `history` key inside try/catch; the parsed value (whatever it
is) is returned as the JSON response body. -/
def handleGetLogs (env : Env) (st : KVStore) : Json :=
  match env.LOG_KV with
  | none => Json.arr []
  | some flags =>
    if flags.getFails then Json.arr []
    else
      match st.history with
      | none => Json.arr []
      | some HVal.malformed => Json.arr []
      | some (HVal.json j) => j

/-- Outcome of the authenticated fetch to the Koyeb profile endpoint.
`ok data dur`: 2xx response whose body parses to `data` in `dur` ms;
`okThrow m dur`: 2xx response but `response.json()` throws with message `m`;
`httpError c x dur`: non-2xx response with status `c` / statusText `x`;
`exn m`: the fetch itself throws with message `m`. -/
inductive PrimaryResp where
  | ok (data : Json) (dur : Nat)
  | okThrow (msg : String) (dur : Nat)
  | httpError (status : Nat) (statusText : String) (dur : Nat)
  | exn (msg : String)

/-- Outcome of the optional unauthenticated ping of `KOYEB_APP_URL`. -/
inductive SecondaryResp where
  | resp (status : Nat) (dur : Nat)
  | exn (msg : String)

/-- Step 2 of `keepAlive`: the Koyeb API try/catch.  Yields the success flag
after the step and the log message it pushes. -/
def primaryStep (timestamp : String) : PrimaryResp → Bool × String
  | PrimaryResp.ok data dur =>
    match userEmail data with
    | Except.error _ =>
      (false, "[" ++ timestamp ++ "] ❌ Koyeb API 请求异常: " ++ nullReadUserMsg)
    | Except.ok emailOpt =>
      let email :=
        match emailOpt with
        | none => "Unknown"
        | some v => if jsTruthy v then jsToString v else "Unknown"
      (true, "[" ++ timestamp ++ "] ✅ Koyeb API 验证成功 (" ++ toString dur
        ++ "ms) - 用户: " ++ email)
  | PrimaryResp.okThrow m _ =>
    (false, "[" ++ timestamp ++ "] ❌ Koyeb API 请求异常: " ++ m)
  | PrimaryResp.httpError c x _ =>
    (false, "[" ++ timestamp ++ "] ❌ Koyeb API 失败: " ++ toString c ++ " " ++ x)
  | PrimaryResp.exn m =>
    (false, "[" ++ timestamp ++ "] ❌ Koyeb API 请求异常: " ++ m)

/-- Step 3 of `keepAlive`: the App-URL ping try/catch; yields the message it
pushes (it never touches the success flag). -/
def secondaryStep (timestamp : String) : SecondaryResp → String
  | SecondaryResp.resp c dur =>
    "[" ++ timestamp ++ "] 🌐 App Ping: " ++ toString c ++ " (" ++ toString dur ++ "ms)"
  | SecondaryResp.exn m =>
    "[" ++ timestamp ++ "] ⚠️ App Ping 失败: " ++ m

/-- `{ success, logs }` as returned by `keepAlive`. -/
structure RunResult where
  success : Bool
  logs : List String

/-- Full observable outcome of a `keepAlive` run: the returned RunResult, the
KV store state after the run, and the number of `fetch` calls issued. -/
structure KeepAliveOut where
  result : RunResult
  store : KVStore
  fetchCount : Nat

/-- `keepAlive(env, source)`.  `timestamp` is the single
`new Date().toISOString()` taken at the start (used in every message);
`saveNow` is the `new Date().toISOString()` taken inside `saveLogs`.  The JS
default for `source` is `'Manual'`; callers in the source pass
`'Cron Scheduled'` (cron) and `'Web Dashboard'` (trigger route). -/
def keepAlive (env : Env) (source : String) (timestamp : String)
    (primary : PrimaryResp) (secondary : SecondaryResp)
    (saveNow : String) (st : KVStore) : KeepAliveOut :=
  let logs : List String :=
    ["[" ++ timestamp ++ "] 🚀 任务开始 (来源: " ++ source ++ ")"]
  if truthyStr env.KOYEB_TOKEN = false then
    let logs := logs ++
      ["[" ++ timestamp ++ "] ❌ 错误: 未检测到 KOYEB_TOKEN 环境变量。请在设置中配置。"]
    { result := { success := false, logs := logs }
      store := saveLogs env st logs false saveNow
      fetchCount := 0 }
  else
    let step2 := primaryStep timestamp primary
    let success := step2.fst
    let logs := logs ++ [step2.snd]
    if truthyStr env.KOYEB_APP_URL then
      let logs := logs ++ [secondaryStep timestamp secondary]
      { result := { success := success, logs := logs }
        store := saveLogs env st logs success saveNow
        fetchCount := 2 }
    else
      { result := { success := success, logs := logs }
        store := saveLogs env st logs success saveNow
        fetchCount := 1 }

/-- `JSON.stringify(result)` for the RunResult returned by `/api/trigger`. -/
def encodeRunResult (r : RunResult) : Json :=
  Json.obj [("success", Json.bool r.success),
            ("logs", Json.arr (r.logs.map Json.str))]

/-- Observable outcome of `/api/trigger`: JSON response body, store after,
fetches issued. -/
structure TriggerOut where
  body : Json
  store : KVStore
  fetchCount : Nat

/-- `handleTrigger(env)`: runs `keepAlive(env, 'Web Dashboard')` and responds
with the JSON-stringified RunResult. -/
def handleTrigger (env : Env) (timestamp : String) (primary : PrimaryResp)
    (secondary : SecondaryResp) (saveNow : String) (st : KVStore) : TriggerOut :=
  let o := keepAlive env "Web Dashboard" timestamp primary secondary saveNow st
  { body := encodeRunResult o.result
    store := o.store
    fetchCount := o.fetchCount }

/-- The RunRecord of the spec's data model, as read back from a history
entry. -/
structure RunRecord where
  time : String
  status : String
  messages : List String

/-- Decode the `messages` field of a history entry back to strings. -/
def decodeMsgs : List Json → Option (List String)
  | [] => some []
  | Json.str s :: rest =>
    match decodeMsgs rest with
    | some t => some (s :: t)
    | none => none
  | _ => none

/-- Decode one serialized history entry back into a RunRecord (the field
accesses `entry.time`, `entry.status`, `entry.messages` performed by the
dashboard client). -/
def decodeEntry (j : Json) : Option RunRecord :=
  match j with
  | Json.obj kvs =>
    match lookupPairs kvs "time", lookupPairs kvs "status", lookupPairs kvs "messages" with
    | some (Json.str t), some (Json.str s), some (Json.arr ms) =>
      match decodeMsgs ms with
      | some msgs => some { time := t, status := s, messages := msgs }
      | none => none
    | _, _, _ => none
  | _ => none

/-- The element list of the `/api/logs` response body (the dashboard client
iterates it with `data.forEach` when it is an array). -/
def listEntries : Json → List Json
  | Json.arr xs => xs
  | _ => []

/-- One `append` invocation of the History Store: the message list, success
flag and save-time timestamp passed to `saveLogs`. -/
structure AppendCall where
  newLogs : List String
  status : Bool
  now : String

/-- The entry that `saveLogs` serializes for a given append call. -/
def encCall (c : AppendCall) : Json := logEntry c.now c.status c.newLogs

/-- A sequence of `append` operations run left-to-right against the store. -/
def appendAll (env : Env) (calls : List AppendCall) (st : KVStore) : KVStore :=
  List.foldl (fun s c => saveLogs env s c.newLogs c.status c.now) st calls

/-- KV binding whose operations all succeed. -/
def kvOK : KVFlags :=
  { getFails := false, putHistoryFails := false, putLastRunFails := false }

/-- Environment fixtures for concrete witnesses. -/
def envNoToken : Env := { KOYEB_TOKEN := none, KOYEB_APP_URL := none, LOG_KV := none }

def envNoTokenKV : Env := { KOYEB_TOKEN := none, KOYEB_APP_URL := none, LOG_KV := some kvOK }

def envTok : Env := { KOYEB_TOKEN := some "tok", KOYEB_APP_URL := none, LOG_KV := none }

def envTokKV : Env := { KOYEB_TOKEN := some "tok", KOYEB_APP_URL := some "https://x", LOG_KV := some kvOK }

def envTokKVNoUrl : Env := { KOYEB_TOKEN := some "tok", KOYEB_APP_URL := none, LOG_KV := some kvOK }

def emptyStore : KVStore := { history := none, lastRun := none }

def corruptStore : KVStore := { history := some HVal.malformed, lastRun := none }

def arrStore : KVStore :=
  { history := some (HVal.json (Json.arr [logEntry "T0" true ["old"]])), lastRun := some "T0" }

/-! ### Helper lemmas -/

/-- Appending to an absent history key writes a one-entry array and the
`last_run` timestamp. -/
theorem saveLogs_none (env : Env) (st : KVStore) (n : List String) (b : Bool)
    (t : String) (henv : env.LOG_KV = some kvOK) (hh : st.history = none) :
    saveLogs env st n b t =
      { history := some (HVal.json (Json.arr [logEntry t b n])), lastRun := some t } := by
  simp [saveLogs, henv, saveLogsTry, hh, kvOK]

/-- Appending to a stored JSON array prepends the new entry and truncates to
the capacity (when the array is within capacity the truncation is the
identity, so the `take` form holds unconditionally). -/
theorem saveLogs_arr (env : Env) (st : KVStore) (hs : List Json) (n : List String)
    (b : Bool) (t : String) (henv : env.LOG_KV = some kvOK)
    (hh : st.history = some (HVal.json (Json.arr hs))) :
    saveLogs env st n b t =
      { history := some (HVal.json (Json.arr ((logEntry t b n :: hs).take LOG_LIMIT))),
        lastRun := some t } := by
  have hx : (if (logEntry t b n :: hs).length > LOG_LIMIT
        then (logEntry t b n :: hs).take LOG_LIMIT
        else (logEntry t b n :: hs)) = (logEntry t b n :: hs).take LOG_LIMIT := by
    rcases Nat.lt_or_ge LOG_LIMIT (logEntry t b n :: hs).length with h | h
    · rw [if_pos h]
    · rw [if_neg (Nat.not_lt.mpr h), List.take_of_length_le h]
  simp [saveLogs, henv, saveLogsTry, hh, kvOK, hx]

/-- Truncating, prepending and truncating again is the same as prepending and
truncating once: `take n` absorbs an inner `take n` under a left append. -/
theorem take_append_take {α : Type} (A l : List α) (n : Nat) :
    (A ++ l.take n).take n = (A ++ l).take n := by
  rw [List.take_append_eq_append_take, List.take_append_eq_append_take,
    List.take_take, Nat.min_eq_left (Nat.sub_le n A.length)]

/-- Invariant of iterated appends over an available store holding a JSON
array within capacity: the history becomes the reversed entry list prepended
to the old contents, truncated to capacity. -/
theorem appendAll_arr (env : Env) (henv : env.LOG_KV = some kvOK) :
    ∀ (calls : List AppendCall) (hs : List Json) (lr : Option String),
      hs.length ≤ LOG_LIMIT →
      (appendAll env calls { history := some (HVal.json (Json.arr hs)), lastRun := lr }).history
        = some (HVal.json (Json.arr (((calls.map encCall).reverse ++ hs).take LOG_LIMIT)))
  | [], hs, lr, hlen => by
    simp [appendAll, List.take_of_length_le hlen]
  | c :: cs, hs, lr, hlen => by
    have hstep := saveLogs_arr env { history := some (HVal.json (Json.arr hs)), lastRun := lr }
      hs c.newLogs c.status c.now henv rfl
    have hrec := appendAll_arr env henv cs ((logEntry c.now c.status c.newLogs :: hs).take LOG_LIMIT)
      (some c.now) (by simp)
    calc (appendAll env (c :: cs) { history := some (HVal.json (Json.arr hs)), lastRun := lr }).history
        = (appendAll env cs
            { history := some (HVal.json (Json.arr ((logEntry c.now c.status c.newLogs :: hs).take LOG_LIMIT))),
              lastRun := some c.now }).history := by
          simp only [appendAll, List.foldl_cons, hstep]
      _ = some (HVal.json (Json.arr (((cs.map encCall).reverse
            ++ (logEntry c.now c.status c.newLogs :: hs).take LOG_LIMIT).take LOG_LIMIT))) := hrec
      _ = some (HVal.json (Json.arr ((((c :: cs).map encCall).reverse ++ hs).take LOG_LIMIT))) := by
          rw [take_append_take, List.map_cons, List.reverse_cons, List.append_assoc]
          rfl

/-- The store returned by `keepAlive` is exactly `saveLogs` applied to the
returned message list and success flag (both call sites of `saveLogs` in the
source pass the very values that are returned). -/
theorem keepAlive_store (env : Env) (source timestamp : String) (p : PrimaryResp)
    (s : SecondaryResp) (saveNow : String) (st : KVStore) :
    (keepAlive env source timestamp p s saveNow st).store =
      saveLogs env st (keepAlive env source timestamp p s saveNow st).result.logs
        (keepAlive env source timestamp p s saveNow st).result.success saveNow := by
  by_cases h1 : truthyStr env.KOYEB_TOKEN = false
  · simp [keepAlive, h1]
  · by_cases h2 : truthyStr env.KOYEB_APP_URL
    · simp [keepAlive, h1, h2]
    · simp [keepAlive, h1, h2]

/-- Decoding the serialized form of a string list recovers the list. -/
theorem decodeMsgs_map (ms : List String) : decodeMsgs (ms.map Json.str) = some ms := by
  induction ms with
  | nil => rfl
  | cons m rest ih => simp [decodeMsgs, ih]

/-- Round-trip of one history entry: decoding the entry `saveLogs` serializes
recovers every field exactly. -/
theorem decodeEntry_logEntry (t : String) (b : Bool) (ms : List String) :
    decodeEntry (logEntry t b ms) =
      some { time := t, status := if b then "success" else "error", messages := ms } := by
  simp [decodeEntry, logEntry, lookupPairs, decodeMsgs_map]

/-- When the binding is available and the `history` key holds JSON text, the
`/api/logs` body is exactly the parsed value. -/
theorem handleGetLogs_json (env : Env) (st : KVStore) (j : Json)
    (henv : env.LOG_KV = some kvOK) (hh : st.history = some (HVal.json j)) :
    handleGetLogs env st = j := by
  simp [handleGetLogs, henv, kvOK, hh]

/-- `data.user?.email` only throws when `data` itself is `null`. -/
theorem userEmail_ok (data : Json) (h : data ≠ Json.null) :
    ∃ e, userEmail data = Except.ok e := by
  cases data with
  | null => exact absurd rfl h
  | bool b => exact ⟨none, rfl⟩
  | num n => exact ⟨none, rfl⟩
  | str s => exact ⟨none, rfl⟩
  | arr xs => exact ⟨none, rfl⟩
  | obj kvs =>
    unfold userEmail
    simp only [jsProp]
    cases hl : lookupPairs kvs "user" with
    | none => exact ⟨none, rfl⟩
    | some u =>
      cases u with
      | null => exact ⟨none, rfl⟩
      | bool b => exact ⟨none, rfl⟩
      | num n => exact ⟨none, rfl⟩
      | str s => exact ⟨none, rfl⟩
      | arr xs => exact ⟨none, rfl⟩
      | obj kvs2 => exact ⟨lookupPairs kvs2 "email", rfl⟩

/-- After an `append` over an available store whose history is absent or a
JSON array, the first element served by `/api/logs` is the new entry. -/
theorem append_head (env : Env) (st : KVStore) (msgs : List String) (b : Bool)
    (t : String) (henv : env.LOG_KV = some kvOK)
    (hh : st.history = none ∨ ∃ hs, st.history = some (HVal.json (Json.arr hs))) :
    (listEntries (handleGetLogs env (saveLogs env st msgs b t))).head?
      = some (logEntry t b msgs) := by
  rcases hh with hh | ⟨hs, hh⟩
  · rw [saveLogs_none env st msgs b t henv hh,
      handleGetLogs_json env _ _ henv rfl]
    rfl
  · rw [saveLogs_arr env st hs msgs b t henv hh,
      handleGetLogs_json env _ _ henv rfl]
    simp [listEntries, LOG_LIMIT]

/-! ### Claim theorems -/

/-- C1: starting from an empty History with capacity 20, any sequence of
appends leaves `list()` equal to the reversed append sequence truncated to
capacity — length `min N 20`, strictly newest-first, oldest entries silently
dropped. -/
theorem history_bounded_newest_first (env : Env) (henv : env.LOG_KV = some kvOK)
    (calls : List AppendCall) (lr : Option String) :
    handleGetLogs env (appendAll env calls { history := none, lastRun := lr })
      = Json.arr ((calls.map encCall).reverse.take LOG_LIMIT) ∧
    (listEntries (handleGetLogs env (appendAll env calls { history := none, lastRun := lr }))).length
      = min calls.length LOG_LIMIT := by
  have key : handleGetLogs env (appendAll env calls { history := none, lastRun := lr })
      = Json.arr ((calls.map encCall).reverse.take LOG_LIMIT) := by
    cases calls with
    | nil => simp [appendAll, handleGetLogs, henv, kvOK]
    | cons c cs =>
      have h1 : appendAll env (c :: cs) { history := none, lastRun := lr }
          = appendAll env cs
              { history := some (HVal.json (Json.arr [encCall c])), lastRun := some c.now } := by
        unfold appendAll
        rw [List.foldl_cons, saveLogs_none env _ c.newLogs c.status c.now henv rfl]
        rfl
      have h2 := appendAll_arr env henv cs [encCall c] (some c.now) (by simp [LOG_LIMIT])
      rw [h1, handleGetLogs_json env _ _ henv h2, List.map_cons, List.reverse_cons]
  refine ⟨key, ?_⟩
  rw [key]
  simp only [listEntries, List.length_take, List.length_reverse, List.length_map]
  omega

/-- C1 witness: two appends to an empty store over an available binding. -/
theorem history_bounded_newest_first_witness :
    envTokKV.LOG_KV = some kvOK ∧
    (handleGetLogs envTokKV (appendAll envTokKV
        [{ newLogs := ["a"], status := true, now := "T1" },
         { newLogs := ["b"], status := false, now := "T2" }]
        { history := none, lastRun := none })
      = Json.arr (([{ newLogs := ["a"], status := true, now := "T1" },
          { newLogs := ["b"], status := false, now := "T2" }] : List AppendCall).map
            encCall |>.reverse.take LOG_LIMIT) ∧
     (listEntries (handleGetLogs envTokKV (appendAll envTokKV
        [{ newLogs := ["a"], status := true, now := "T1" },
         { newLogs := ["b"], status := false, now := "T2" }]
        { history := none, lastRun := none }))).length
      = min ([{ newLogs := ["a"], status := true, now := "T1" },
          { newLogs := ["b"], status := false, now := "T2" }] : List AppendCall).length LOG_LIMIT) :=
  ⟨rfl, history_bounded_newest_first envTokKV rfl
    [{ newLogs := ["a"], status := true, now := "T1" },
     { newLogs := ["b"], status := false, now := "T2" }] none⟩

/-- C2 counterexample: with the credential absent the runner's message list
has two entries (the start banner and the failure message), not exactly one
as the claim states. -/
theorem credential_absent_one_message_cex :
    (keepAlive envNoToken "Manual" "T0" (PrimaryResp.exn "x") (SecondaryResp.exn "y")
        "T1" emptyStore).result.logs.length = 2 ∧
    ¬ (keepAlive envNoToken "Manual" "T0" (PrimaryResp.exn "x") (SecondaryResp.exn "y")
        "T1" emptyStore).result.logs.length = 1 := by
  exact ⟨rfl, by decide⟩

/-- C2 (amended): with the credential absent (missing or empty), the runner
returns success=false, a message sequence of exactly two messages — the start
banner and a single failure message — and issues zero fetch calls. -/
theorem credential_absent_runner (env : Env) (source ts : String) (p : PrimaryResp)
    (s : SecondaryResp) (now : String) (st : KVStore)
    (htok : truthyStr env.KOYEB_TOKEN = false) :
    (keepAlive env source ts p s now st).result.success = false ∧
    (keepAlive env source ts p s now st).result.logs =
      ["[" ++ ts ++ "] 🚀 任务开始 (来源: " ++ source ++ ")",
       "[" ++ ts ++ "] ❌ 错误: 未检测到 KOYEB_TOKEN 环境变量。请在设置中配置。"] ∧
    (keepAlive env source ts p s now st).fetchCount = 0 := by
  simp [keepAlive, htok]

/-- C2 witness. -/
theorem credential_absent_runner_witness :
    truthyStr envNoToken.KOYEB_TOKEN = false ∧
    ((keepAlive envNoToken "Manual" "T0" (PrimaryResp.exn "x") (SecondaryResp.exn "y")
        "T1" emptyStore).result.success = false ∧
     (keepAlive envNoToken "Manual" "T0" (PrimaryResp.exn "x") (SecondaryResp.exn "y")
        "T1" emptyStore).result.logs =
      ["[" ++ "T0" ++ "] 🚀 任务开始 (来源: " ++ "Manual" ++ ")",
       "[" ++ "T0" ++ "] ❌ 错误: 未检测到 KOYEB_TOKEN 环境变量。请在设置中配置。"] ∧
     (keepAlive envNoToken "Manual" "T0" (PrimaryResp.exn "x") (SecondaryResp.exn "y")
        "T1" emptyStore).fetchCount = 0) :=
  ⟨rfl, credential_absent_runner envNoToken "Manual" "T0" (PrimaryResp.exn "x")
    (SecondaryResp.exn "y") "T1" emptyStore rfl⟩

/-- C3 counterexample: `/api/trigger` invokes the runner with source
`"Web Dashboard"`, not `"manual"`; at a concrete input, its response body is
the run with source `"Web Dashboard"`, whose message list differs from the
run with source `"manual"`. -/
theorem trigger_source_cex :
    (handleTrigger envTok "T0" (PrimaryResp.httpError 500 "Internal Server Error" 5)
        (SecondaryResp.exn "e") "T1" emptyStore).body
      = encodeRunResult (keepAlive envTok "Web Dashboard" "T0"
          (PrimaryResp.httpError 500 "Internal Server Error" 5)
          (SecondaryResp.exn "e") "T1" emptyStore).result ∧
    (keepAlive envTok "Web Dashboard" "T0" (PrimaryResp.httpError 500 "Internal Server Error" 5)
        (SecondaryResp.exn "e") "T1" emptyStore).result.logs
      ≠ (keepAlive envTok "manual" "T0" (PrimaryResp.httpError 500 "Internal Server Error" 5)
        (SecondaryResp.exn "e") "T1" emptyStore).result.logs :=
  ⟨rfl, by decide⟩

/-- C3 (amended): for every `/api/trigger` request — any environment, any
fetch outcomes, any store state — the façade invokes the runner with source
`"Web Dashboard"`, hands the resulting RunResult to the History Store's
append (the response's store state is exactly `saveLogs` applied to the
returned message list and success flag), and returns the RunResult as
structured data; whenever the backing store is available and its stored
history is absent or a JSON array, that append lands and the result becomes
the first element of the stored history. -/
theorem trigger_invokes_runner_persists (env : Env) (ts : String) (p : PrimaryResp)
    (s : SecondaryResp) (now : String) (st : KVStore) :
    (handleTrigger env ts p s now st).body
      = encodeRunResult (keepAlive env "Web Dashboard" ts p s now st).result ∧
    (handleTrigger env ts p s now st).store
      = saveLogs env st (keepAlive env "Web Dashboard" ts p s now st).result.logs
          (keepAlive env "Web Dashboard" ts p s now st).result.success now ∧
    (env.LOG_KV = some kvOK →
      (st.history = none ∨ ∃ hs, st.history = some (HVal.json (Json.arr hs))) →
      (listEntries (handleGetLogs env (handleTrigger env ts p s now st).store)).head?
        = some (logEntry now (keepAlive env "Web Dashboard" ts p s now st).result.success
            (keepAlive env "Web Dashboard" ts p s now st).result.logs)) := by
  refine ⟨rfl, keepAlive_store env "Web Dashboard" ts p s now st, ?_⟩
  intro henv hh
  show (listEntries (handleGetLogs env (keepAlive env "Web Dashboard" ts p s now st).store)).head?
    = some (logEntry now (keepAlive env "Web Dashboard" ts p s now st).result.success
        (keepAlive env "Web Dashboard" ts p s now st).result.logs)
  rw [keepAlive_store]
  exact append_head env st _ _ now henv hh

/-- C3 witness: a trigger request over an available empty store, with the
availability implication discharged. -/
theorem trigger_invokes_runner_persists_witness :
    (handleTrigger envTokKVNoUrl "T0" (PrimaryResp.exn "boom") (SecondaryResp.exn "e")
        "T1" emptyStore).body
      = encodeRunResult (keepAlive envTokKVNoUrl "Web Dashboard" "T0" (PrimaryResp.exn "boom")
          (SecondaryResp.exn "e") "T1" emptyStore).result ∧
    (handleTrigger envTokKVNoUrl "T0" (PrimaryResp.exn "boom") (SecondaryResp.exn "e")
        "T1" emptyStore).store
      = saveLogs envTokKVNoUrl emptyStore
          (keepAlive envTokKVNoUrl "Web Dashboard" "T0" (PrimaryResp.exn "boom")
            (SecondaryResp.exn "e") "T1" emptyStore).result.logs
          (keepAlive envTokKVNoUrl "Web Dashboard" "T0" (PrimaryResp.exn "boom")
            (SecondaryResp.exn "e") "T1" emptyStore).result.success "T1" ∧
    (listEntries (handleGetLogs envTokKVNoUrl
        (handleTrigger envTokKVNoUrl "T0" (PrimaryResp.exn "boom") (SecondaryResp.exn "e")
          "T1" emptyStore).store)).head?
      = some (logEntry "T1"
          (keepAlive envTokKVNoUrl "Web Dashboard" "T0" (PrimaryResp.exn "boom")
            (SecondaryResp.exn "e") "T1" emptyStore).result.success
          (keepAlive envTokKVNoUrl "Web Dashboard" "T0" (PrimaryResp.exn "boom")
            (SecondaryResp.exn "e") "T1" emptyStore).result.logs) :=
  ⟨(trigger_invokes_runner_persists envTokKVNoUrl "T0" (PrimaryResp.exn "boom")
      (SecondaryResp.exn "e") "T1" emptyStore).1,
   (trigger_invokes_runner_persists envTokKVNoUrl "T0" (PrimaryResp.exn "boom")
      (SecondaryResp.exn "e") "T1" emptyStore).2.1,
   (trigger_invokes_runner_persists envTokKVNoUrl "T0" (PrimaryResp.exn "boom")
      (SecondaryResp.exn "e") "T1" emptyStore).2.2 rfl (Or.inl rfl)⟩

/-- C4: whenever the primary endpoint yields a non-2xx status or the fetch
throws, the runner returns success=false for every secondary outcome, and it
still returns the full message list (the exception is converted to a message
rather than propagated — the runner's output is total). -/
theorem primary_failure_flips_success (env : Env) (source ts : String) (p : PrimaryResp)
    (s : SecondaryResp) (now : String) (st : KVStore)
    (htok : truthyStr env.KOYEB_TOKEN = true)
    (hp : (∃ c x d, p = PrimaryResp.httpError c x d) ∨ ∃ m, p = PrimaryResp.exn m) :
    (keepAlive env source ts p s now st).result.success = false ∧
    (keepAlive env source ts p s now st).result.logs.length
      = if truthyStr env.KOYEB_APP_URL then 3 else 2 := by
  have hps : (primaryStep ts p).fst = false := by
    rcases hp with ⟨c, x, d, rfl⟩ | ⟨m, rfl⟩ <;> rfl
  by_cases h2 : truthyStr env.KOYEB_APP_URL
  · simp [keepAlive, htok, h2, hps]
  · simp [keepAlive, htok, h2, hps]

/-- C4 witness: primary 500 with a succeeding secondary ping. -/
theorem primary_failure_flips_success_witness :
    truthyStr envTokKV.KOYEB_TOKEN = true ∧
    ((keepAlive envTokKV "Manual" "T0" (PrimaryResp.httpError 500 "Internal Server Error" 5)
        (SecondaryResp.resp 200 3) "T1" emptyStore).result.success = false ∧
     (keepAlive envTokKV "Manual" "T0" (PrimaryResp.httpError 500 "Internal Server Error" 5)
        (SecondaryResp.resp 200 3) "T1" emptyStore).result.logs.length
      = if truthyStr envTokKV.KOYEB_APP_URL then 3 else 2) :=
  ⟨rfl, primary_failure_flips_success envTokKV "Manual" "T0"
    (PrimaryResp.httpError 500 "Internal Server Error" 5) (SecondaryResp.resp 200 3)
    "T1" emptyStore rfl (Or.inl ⟨500, "Internal Server Error", 5, rfl⟩)⟩

/-- C5: when the primary check succeeds (2xx with a parsed non-null body),
the runner returns success=true for every secondary outcome, including a
throwing secondary fetch — secondary failures never flip the flag. -/
theorem secondary_failure_advisory (env : Env) (source ts : String) (data : Json)
    (dur : Nat) (s : SecondaryResp) (now : String) (st : KVStore)
    (htok : truthyStr env.KOYEB_TOKEN = true) (hdata : data ≠ Json.null) :
    (keepAlive env source ts (PrimaryResp.ok data dur) s now st).result.success = true := by
  obtain ⟨e, he⟩ := userEmail_ok data hdata
  have hps : (primaryStep ts (PrimaryResp.ok data dur)).fst = true := by
    simp [primaryStep, he]
  by_cases h2 : truthyStr env.KOYEB_APP_URL
  · simp [keepAlive, htok, h2, hps]
  · simp [keepAlive, htok, h2, hps]

/-- C5 witness: secondary URL configured and its fetch throws, primary ok. -/
theorem secondary_failure_advisory_witness :
    truthyStr envTokKV.KOYEB_TOKEN = true ∧
    (Json.obj [("user", Json.obj [("email", Json.str "a@b.com")])]) ≠ Json.null ∧
    (keepAlive envTokKV "Manual" "T0"
        (PrimaryResp.ok (Json.obj [("user", Json.obj [("email", Json.str "a@b.com")])]) 12)
        (SecondaryResp.exn "unreachable") "T1" emptyStore).result.success = true :=
  ⟨rfl, (by simp),
    secondary_failure_advisory envTokKV "Manual" "T0"
      (Json.obj [("user", Json.obj [("email", Json.str "a@b.com")])]) 12
      (SecondaryResp.exn "unreachable") "T1" emptyStore rfl (by simp)⟩

/-- C7: `/api/logs` returns the empty sequence when the binding is absent,
the history key is missing, or the stored value fails to parse. -/
theorem list_degrades_empty (env : Env) (st : KVStore)
    (h : env.LOG_KV = none ∨ st.history = none ∨ st.history = some HVal.malformed) :
    handleGetLogs env st = Json.arr [] := by
  cases he : env.LOG_KV with
  | none => simp [handleGetLogs, he]
  | some f =>
    rcases h with h0 | h1 | h2
    · rw [he] at h0; exact absurd h0 (by simp)
    · by_cases hg : f.getFails = true
      · simp [handleGetLogs, he, hg]
      · have hg' : f.getFails = false := by simpa using hg
        simp [handleGetLogs, he, hg', h1]
    · by_cases hg : f.getFails = true
      · simp [handleGetLogs, he, hg]
      · have hg' : f.getFails = false := by simpa using hg
        simp [handleGetLogs, he, hg', h2]

/-- C7 witness: parse failure on the stored history value. -/
theorem list_degrades_empty_witness :
    (envTokKV.LOG_KV = none ∨ corruptStore.history = none ∨
      corruptStore.history = some HVal.malformed) ∧
    handleGetLogs envTokKV corruptStore = Json.arr [] :=
  ⟨Or.inr (Or.inr rfl),
   list_degrades_empty envTokKV corruptStore (Or.inr (Or.inr rfl))⟩

/-- C8 counterexample: over an available binding whose stored history text is
not valid JSON, the whole append aborts in the catch — `list()` afterwards
has no first element and no `last_run` timestamp was written, so the claimed
round trip fails for this available store state. -/
theorem roundtrip_malformed_cex :
    (listEntries (handleGetLogs envTokKV
        (saveLogs envTokKV corruptStore ["m"] true "T1"))).head? = none ∧
    (saveLogs envTokKV corruptStore ["m"] true "T1").lastRun = none :=
  ⟨rfl, rfl⟩

/-- C8 (amended): for every record and every available backing store state
whose stored history is absent or parses as a JSON array, `append` followed
by `list()` yields the record as the first element, all fields recovered
byte-for-byte by decoding the serialized entry, and the `last_run` timestamp
key written. -/
theorem append_list_roundtrip (env : Env) (st : KVStore) (msgs : List String)
    (b : Bool) (t : String) (henv : env.LOG_KV = some kvOK)
    (hh : st.history = none ∨ ∃ hs, st.history = some (HVal.json (Json.arr hs))) :
    (listEntries (handleGetLogs env (saveLogs env st msgs b t))).head?
      = some (logEntry t b msgs) ∧
    decodeEntry (logEntry t b msgs)
      = some { time := t, status := if b then "success" else "error", messages := msgs } ∧
    (saveLogs env st msgs b t).lastRun = some t := by
  refine ⟨append_head env st msgs b t henv hh, decodeEntry_logEntry t b msgs, ?_⟩
  rcases hh with hh | ⟨hs, hh⟩
  · rw [saveLogs_none env st msgs b t henv hh]
  · rw [saveLogs_arr env st hs msgs b t henv hh]

/-- C8 witness: append over a store already holding a one-entry array. -/
theorem append_list_roundtrip_witness :
    envTokKV.LOG_KV = some kvOK ∧
    (arrStore.history = none ∨
      ∃ hs, arrStore.history = some (HVal.json (Json.arr hs))) ∧
    ((listEntries (handleGetLogs envTokKV
        (saveLogs envTokKV arrStore ["m1", "m2"] false "T9"))).head?
      = some (logEntry "T9" false ["m1", "m2"]) ∧
     decodeEntry (logEntry "T9" false ["m1", "m2"])
      = some { time := "T9", status := if false then "success" else "error",
               messages := ["m1", "m2"] } ∧
     (saveLogs envTokKV arrStore ["m1", "m2"] false "T9").lastRun = some "T9") :=
  ⟨rfl, Or.inr ⟨[logEntry "T0" true ["old"]], rfl⟩,
   append_list_roundtrip envTokKV arrStore ["m1", "m2"] false "T9" rfl
     (Or.inr ⟨[logEntry "T0" true ["old"]], rfl⟩)⟩

/-- C9: over an available store (history absent or a JSON array), the record
the runner persists is the head of the stored history; its `status` field is
`"success"` exactly when the returned success flag is true and `"error"`
exactly when it is false, and its `messages` field equals the returned
message sequence. -/
theorem persisted_status_iff_success (env : Env) (source ts : String) (p : PrimaryResp)
    (s : SecondaryResp) (now : String) (st : KVStore)
    (henv : env.LOG_KV = some kvOK)
    (hh : st.history = none ∨ ∃ hs, st.history = some (HVal.json (Json.arr hs))) :
    (listEntries (handleGetLogs env (keepAlive env source ts p s now st).store)).head?
      = some (logEntry now (keepAlive env source ts p s now st).result.success
          (keepAlive env source ts p s now st).result.logs) ∧
    (decodeEntry (logEntry now (keepAlive env source ts p s now st).result.success
          (keepAlive env source ts p s now st).result.logs)
        = some { time := now, status := "success",
                 messages := (keepAlive env source ts p s now st).result.logs }
      ↔ (keepAlive env source ts p s now st).result.success = true) ∧
    (decodeEntry (logEntry now (keepAlive env source ts p s now st).result.success
          (keepAlive env source ts p s now st).result.logs)
        = some { time := now, status := "error",
                 messages := (keepAlive env source ts p s now st).result.logs }
      ↔ (keepAlive env source ts p s now st).result.success = false) := by
  refine ⟨?_, ?_, ?_⟩
  · rw [keepAlive_store]
    exact append_head env st _ _ now henv hh
  · cases hb : (keepAlive env source ts p s now st).result.success with
    | true => simp [decodeEntry_logEntry]
    | false => simp [decodeEntry_logEntry]
  · cases hb : (keepAlive env source ts p s now st).result.success with
    | true => simp [decodeEntry_logEntry]
    | false => simp [decodeEntry_logEntry]

/-- C9 witness: failed primary fetch persisted over an empty store. -/
theorem persisted_status_iff_success_witness :
    envTokKV.LOG_KV = some kvOK ∧
    (emptyStore.history = none ∨
      ∃ hs, emptyStore.history = some (HVal.json (Json.arr hs))) ∧
    ((listEntries (handleGetLogs envTokKV
        (keepAlive envTokKV "Manual" "T0" (PrimaryResp.exn "x") (SecondaryResp.resp 200 3)
          "T1" emptyStore).store)).head?
      = some (logEntry "T1"
          (keepAlive envTokKV "Manual" "T0" (PrimaryResp.exn "x") (SecondaryResp.resp 200 3)
            "T1" emptyStore).result.success
          (keepAlive envTokKV "Manual" "T0" (PrimaryResp.exn "x") (SecondaryResp.resp 200 3)
            "T1" emptyStore).result.logs) ∧
     (decodeEntry (logEntry "T1"
          (keepAlive envTokKV "Manual" "T0" (PrimaryResp.exn "x") (SecondaryResp.resp 200 3)
            "T1" emptyStore).result.success
          (keepAlive envTokKV "Manual" "T0" (PrimaryResp.exn "x") (SecondaryResp.resp 200 3)
            "T1" emptyStore).result.logs)
        = some { time := "T1", status := "success",
                 messages := (keepAlive envTokKV "Manual" "T0" (PrimaryResp.exn "x")
                   (SecondaryResp.resp 200 3) "T1" emptyStore).result.logs }
      ↔ (keepAlive envTokKV "Manual" "T0" (PrimaryResp.exn "x") (SecondaryResp.resp 200 3)
          "T1" emptyStore).result.success = true) ∧
     (decodeEntry (logEntry "T1"
          (keepAlive envTokKV "Manual" "T0" (PrimaryResp.exn "x") (SecondaryResp.resp 200 3)
            "T1" emptyStore).result.success
          (keepAlive envTokKV "Manual" "T0" (PrimaryResp.exn "x") (SecondaryResp.resp 200 3)
            "T1" emptyStore).result.logs)
        = some { time := "T1", status := "error",
                 messages := (keepAlive envTokKV "Manual" "T0" (PrimaryResp.exn "x")
                   (SecondaryResp.resp 200 3) "T1" emptyStore).result.logs }
      ↔ (keepAlive envTokKV "Manual" "T0" (PrimaryResp.exn "x") (SecondaryResp.resp 200 3)
          "T1" emptyStore).result.success = false)) :=
  ⟨rfl, Or.inl rfl,
   persisted_status_iff_success envTokKV "Manual" "T0" (PrimaryResp.exn "x")
     (SecondaryResp.resp 200 3) "T1" emptyStore rfl (Or.inl rfl)⟩

/-- C10 counterexample: credential absent, backing store bound and its
operations succeeding, but the stored history text malformed — the runner
invokes `append`, yet the append aborts in the catch: the store is unchanged
and `list()` has no first element, so no error-status record of the aborted
run was persisted. -/
theorem credential_failure_not_persisted_cex :
    truthyStr envNoTokenKV.KOYEB_TOKEN = false ∧
    (keepAlive envNoTokenKV "Manual" "T0" (PrimaryResp.exn "x") (SecondaryResp.exn "y")
        "T1" corruptStore).store = corruptStore ∧
    (listEntries (handleGetLogs envNoTokenKV
        (keepAlive envNoTokenKV "Manual" "T0" (PrimaryResp.exn "x") (SecondaryResp.exn "y")
          "T1" corruptStore).store)).head? = none :=
  ⟨rfl, rfl, rfl⟩

/-- C10 (amended): with the credential absent, the runner returns
success=false and still invokes `append` before returning — its resulting
store is exactly `saveLogs` applied to the aborted run's message list with
flag `false` — and whenever the bound store's operations succeed and its
stored history is absent or a JSON array, an error-status record of the
aborted run is persisted as the head of the history. -/
theorem credential_failure_persisted (env : Env) (source ts : String) (p : PrimaryResp)
    (s : SecondaryResp) (now : String) (st : KVStore)
    (htok : truthyStr env.KOYEB_TOKEN = false) :
    (keepAlive env source ts p s now st).result.success = false ∧
    (keepAlive env source ts p s now st).store
      = saveLogs env st (keepAlive env source ts p s now st).result.logs false now ∧
    (env.LOG_KV = some kvOK →
      (st.history = none ∨ ∃ hs, st.history = some (HVal.json (Json.arr hs))) →
      (listEntries (handleGetLogs env (keepAlive env source ts p s now st).store)).head?
        = some (logEntry now false (keepAlive env source ts p s now st).result.logs)) := by
  have hsucc : (keepAlive env source ts p s now st).result.success = false := by
    simp [keepAlive, htok]
  have hstore := keepAlive_store env source ts p s now st
  rw [hsucc] at hstore
  refine ⟨hsucc, hstore, fun henv hh => ?_⟩
  rw [hstore]
  exact append_head env st _ false now henv hh

/-- C10 witness: credential absent over an available empty store, with the
persistence implication discharged. -/
theorem credential_failure_persisted_witness :
    truthyStr envNoTokenKV.KOYEB_TOKEN = false ∧
    ((keepAlive envNoTokenKV "Cron Scheduled" "T0" (PrimaryResp.exn "x")
        (SecondaryResp.exn "y") "T1" emptyStore).result.success = false ∧
     (keepAlive envNoTokenKV "Cron Scheduled" "T0" (PrimaryResp.exn "x")
        (SecondaryResp.exn "y") "T1" emptyStore).store
      = saveLogs envNoTokenKV emptyStore
          (keepAlive envNoTokenKV "Cron Scheduled" "T0" (PrimaryResp.exn "x")
            (SecondaryResp.exn "y") "T1" emptyStore).result.logs false "T1" ∧
     (listEntries (handleGetLogs envNoTokenKV
        (keepAlive envNoTokenKV "Cron Scheduled" "T0" (PrimaryResp.exn "x")
          (SecondaryResp.exn "y") "T1" emptyStore).store)).head?
      = some (logEntry "T1" false
          (keepAlive envNoTokenKV "Cron Scheduled" "T0" (PrimaryResp.exn "x")
            (SecondaryResp.exn "y") "T1" emptyStore).result.logs)) :=
  ⟨rfl,
   (credential_failure_persisted envNoTokenKV "Cron Scheduled" "T0" (PrimaryResp.exn "x")
      (SecondaryResp.exn "y") "T1" emptyStore rfl).1,
   (credential_failure_persisted envNoTokenKV "Cron Scheduled" "T0" (PrimaryResp.exn "x")
      (SecondaryResp.exn "y") "T1" emptyStore rfl).2.1,
   (credential_failure_persisted envNoTokenKV "Cron Scheduled" "T0" (PrimaryResp.exn "x")
      (SecondaryResp.exn "y") "T1" emptyStore rfl).2.2 rfl (Or.inl rfl)⟩
